import Mathlib

/-!
# Verification of the yfinance ETL pipeline core

A shallow embedding, in Lean 4, of the ETL pipeline of this repository:

* `utils/etl/format_stock_prices.py` — the record formatter (flat and grouped),
* `utils/etl/load_to_bigquery.py`    — the MERGE statement builder,
* `utils/etl/fetch_stock_prices.py`  — the price source adapter,
* `utils/notify/notifier.py`         — the Slack notification sink,
* `utils/logger.py`                  — the durable outcome log writer,
* `utils/pipeline.py`                — the orchestrator (`run_extract_pipeline`,
  `run_extract_range_pipeline`) and its outcome handlers.

Modelling conventions:

* Python `float(x)` coercion of an already-numeric price is modelled as the
  identity on an exact rational carrier `Rat` (no floating-point arithmetic is
  performed anywhere in the modelled code paths);
* Python `int(x)` on a numeric is truncation toward zero (`ratTruncInt`);
* the ambient clock (`datetime.now`, `datetime.utcnow`) is passed in as an
  explicit string/timestamp parameter;
* exceptions are modelled with `Except`: a `.error` value is a raised Python
  exception propagating to the caller, `.ok` is a normal return;
* side-effecting collaborator calls (GCS upload, BigQuery jobs, webhook POST)
  are oracles supplied in an environment record, and the orchestrator's calls
  are recorded in an explicit event trace.
-/

/-- A raw per-(ticker, date) record as produced by `fetch_stock_prices`
(`utils/etl/fetch_stock_prices.py`): the pandas row keys `Open/High/Low/Close/Volume`
plus the keys `ticker`, `date` (the `Date` column rendered by `isoformat()`) and
`created_at` that the fetch loop adds.  Numeric cells are carried exactly as `Rat`. -/
structure RawRecord where
  ticker : String
  date : String
  Open : Rat
  High : Rat
  Low : Rat
  Close : Rat
  Volume : Rat
  created_at : String
  deriving Repr, DecidableEq

/-- A formatted record as built by the dict literal in
`format_stock_prices` / `format_stock_prices_by_date`
(`utils/etl/format_stock_prices.py`, lines 40–51 and 77–88). -/
structure FormattedRecord where
  ticker_id : String
  date : String
  open_price : Rat
  high_price : Rat
  low_price : Rat
  close_price : Rat
  volume : Int
  created_at : String
  deriving Repr, DecidableEq

/-- Python `int(x)` on a numeric value: truncation toward zero. -/
def ratTruncInt (q : Rat) : Int :=
  Int.tdiv q.num (q.den : Int)

/-- The body of the per-record formatting dict literal shared by
`format_stock_prices` and `format_stock_prices_by_date`: `date` is the first 10
characters of the raw date string, prices go through `float(...)` (identity on
the exact carrier), `volume` through `int(...)`, and `created_at` is stamped
with the current JST-rendered time, passed here as `createdAt`. -/
def formatOne (createdAt : String) (r : RawRecord) : FormattedRecord :=
  { ticker_id := r.ticker
    date := r.date.take 10
    open_price := r.Open
    high_price := r.High
    low_price := r.Low
    close_price := r.Close
    volume := ratTruncInt r.Volume
    created_at := createdAt }

/-- Python string truthiness test for the `if not stock_date:` guard in
`format_stock_prices`: `None` and the empty string are falsy. -/
def pyStrFalsy : Option String → Bool
  | none => true
  | some s => s = ""

/-- The loop of `format_stock_prices` (`utils/etl/format_stock_prices.py`,
lines 35–56): accumulates one formatted record per raw record and sets
`stock_date` to the first truthy truncated date encountered. -/
def formatLoop (createdAt : String) :
    List RawRecord → Option String → List FormattedRecord × Option String
  | [], stockDate => ([], stockDate)
  | r :: rs, stockDate =>
    let d := r.date.take 10
    let stockDate' := if pyStrFalsy stockDate then some d else stockDate
    let res := formatLoop createdAt rs stockDate'
    (formatOne createdAt r :: res.1, res.2)

/-- `format_stock_prices(fetch_results)` (`utils/etl/format_stock_prices.py`,
lines 23–58): returns the formatted list and the derived `stock_date`
(`none` models Python `None`, returned when the input is empty or no record
has a truthy truncated date). -/
def format_stock_prices (fetchResults : List RawRecord) (createdAt : String) :
    List FormattedRecord × Option String :=
  formatLoop createdAt fetchResults none

/-- One step of the `defaultdict(list)` accumulation in
`format_stock_prices_by_date`: `grouped[date].append(formatted)`.  The mapping
is modelled as an insertion-ordered association list, exactly the iteration
order of a Python dict: a new key is appended at the end, an existing key has
the record appended at the end of its list, in place. -/
def insertGrouped (m : List (String × List FormattedRecord)) (d : String)
    (f : FormattedRecord) : List (String × List FormattedRecord) :=
  match m with
  | [] => [(d, [f])]
  | (k, v) :: rest =>
    if k = d then (k, v ++ [f]) :: rest else (k, v) :: insertGrouped rest d f

/-- `format_stock_prices_by_date(fetch_results)`
(`utils/etl/format_stock_prices.py`, lines 61–97): groups the formatted
records by truncated date into an insertion-ordered mapping. -/
def format_stock_prices_by_date (fetchResults : List RawRecord)
    (createdAt : String) : List (String × List FormattedRecord) :=
  fetchResults.foldl (fun m r => insertGrouped m (r.date.take 10) (formatOne createdAt r)) []

/-- The list of distinct elements of `l` in first-seen order (the key order of
a Python dict built by insertion). -/
def firstSeen : List String → List String
  | [] => []
  | a :: l => a :: firstSeen (l.filter (fun b => ¬ (b = a)))
termination_by l => l.length
decreasing_by
  simp only [List.length_cons]
  exact Nat.lt_succ_of_le (List.length_filter_le _ _)

/-! ## Warehouse loader: the MERGE statement builder (`utils/etl/load_to_bigquery.py`) -/

/-- `KEY_COLS` (`utils/etl/load_to_bigquery.py`, line 98). -/
def KEY_COLS : List String := ["ticker_id", "date"]

/-- `VALUE_COLS` (`utils/etl/load_to_bigquery.py`, lines 99–106). -/
def VALUE_COLS : List String :=
  ["open_price", "high_price", "low_price", "close_price", "volume", "created_at"]

/-- `build_merge_sql(target_table, temp_table, key_cols, value_cols)`
(`utils/etl/load_to_bigquery.py`, lines 114–146): assembles the MERGE statement
string exactly as the Python f-string does. -/
def build_merge_sql (targetTable tempTable : String)
    (keyCols valueCols : List String) : String :=
  let onClause := String.intercalate " AND "
    (keyCols.map (fun col => "T." ++ col ++ " = S." ++ col))
  let updateClause := String.intercalate ", "
    (valueCols.map (fun col => col ++ " = S." ++ col))
  let insertCols := keyCols ++ valueCols
  let insertColsStr := String.intercalate ", " insertCols
  let insertValsStr := String.intercalate ", " (insertCols.map (fun col => "S." ++ col))
  "\n    MERGE `" ++ targetTable ++ "` T\n    USING `" ++ tempTable ++ "` S\n    ON "
    ++ onClause
    ++ "\n    WHEN MATCHED THEN\n      UPDATE SET "
    ++ updateClause
    ++ "\n    WHEN NOT MATCHED THEN\n      INSERT ("
    ++ insertColsStr
    ++ ") VALUES ("
    ++ insertValsStr
    ++ ")\n    "

/-! ## Notification sink (`utils/notify/notifier.py`) -/

/-- Result of a `notify_slack` call that returned normally. -/
inductive NotifyResult where
  /-- The webhook POST succeeded. -/
  | sent : NotifyResult
  /-- The POST (or `raise_for_status`) failed; the exception was logged and
  swallowed by the `except` clause at lines 65–68. -/
  | postFailureLogged (errMsg : String) : NotifyResult
  deriving Repr, DecidableEq

/-- `notify_slack(message, success)` (`utils/notify/notifier.py`, lines 21–68).
`webhookUrl` is the value of `os.getenv("SLACK_WEBHOOK_URL")` (`none` = unset);
`post` is the outcome of `requests.post(...)` followed by
`response.raise_for_status()`.  An unset or empty webhook URL raises
`ValueError` before the `try` block; a failing POST is caught and logged. -/
def notify_slack (webhookUrl : Option String) (post : Except String Unit)
    (message : String) (success : Bool) : Except String NotifyResult :=
  if pyStrFalsy webhookUrl then
    .error "SLACK_WEBHOOK_URL is not set in environment variables."
  else
    match post with
    | .ok _ => .ok .sent
    | .error e => .ok (.postFailureLogged e)

/-- An outcome payload is the Python dict built in the `handle_etl_*`
handlers: an ordered list of string key/value pairs. -/
abbrev Payload := List (String × String)

/-- `format_slack_message(payload)` (`utils/notify/notifier.py`, lines 71–95). -/
def format_slack_message (payload : Payload) : String :=
  let statusIcon := if payload.lookup "status" = some "success" then "✅" else "❌"
  let messageLines :=
    [statusIcon ++ " " ++ ((payload.lookup "message").getD "処理メッセージなし"),
     "実行モード: " ++ ((payload.lookup "mode").getD "-"),
     "実行時刻: " ++ ((payload.lookup "timestamp").getD "-")]
  let messageLines :=
    if payload.lookup "status" = some "error" then
      messageLines ++ ["error: " ++ ((payload.lookup "error_message").getD "エラー詳細なし")]
    else messageLines
  String.intercalate "\n" messageLines

/-! ## Durable outcome log (`utils/logger.py`) -/

/-- Result of a `log_to_gcs` call (which always returns normally). -/
inductive GcsLogResult where
  /-- The upload succeeded and the success log line was emitted. -/
  | saved (filename : String) : GcsLogResult
  /-- The upload raised; the exception was caught and logged
  (`utils/logger.py`, lines 91–92). -/
  | uploadFailureLogged (errMsg : String) : GcsLogResult
  deriving Repr, DecidableEq

/-- `log_to_gcs(payload, bucket_name)` (`utils/logger.py`, lines 63–92).
`now` is `datetime.utcnow().strftime("%Y-%m-%d_%H%M%S")`; `upload` is the
oracle for the storage-client calls inside the `try` block, applied to the
derived blob filename.  The `Except` layer of the result is exception
propagation to the caller. -/
def log_to_gcs (upload : String → Except String Unit) (payload : Payload)
    (now : String) : Except String GcsLogResult :=
  let status := (payload.lookup "status").getD "log"
  let filename := "logs/" ++ now ++ "_" ++ status ++ ".json"
  match upload filename with
  | .ok _ => .ok (.saved filename)
  | .error e => .ok (.uploadFailureLogged e)

/-! ## Outcome payloads (`utils/pipeline.py`, handlers at lines 156–217) -/

/-- The default `reason` argument of `handle_etl_skip`. -/
def SKIP_REASON : String := "No stock data fetched (possibly holiday). ETL skipped."

/-- The dict literal of `handle_etl_skip` (`utils/pipeline.py`, lines 169–174). -/
def skipPayload (mode timestamp reason : String) : Payload :=
  [("status", "skip"), ("mode", mode), ("timestamp", timestamp), ("message", reason)]

/-- The dict literal of `handle_etl_success` (`utils/pipeline.py`, lines 189–194). -/
def successPayload (mode timestamp message : String) : Payload :=
  [("status", "success"), ("mode", mode), ("timestamp", timestamp), ("message", message)]

/-- The dict literal of `handle_etl_error` (`utils/pipeline.py`, lines 208–214):
note it carries `error_message` and `traceback` but no `message` key. -/
def errorPayload (mode timestamp errorMessage tracebackStr : String) : Payload :=
  [("status", "error"), ("mode", mode), ("timestamp", timestamp),
   ("error_message", errorMessage), ("traceback", tracebackStr)]

/-! ## Price source adapter (`utils/etl/fetch_stock_prices.py`) -/

/-- A calendar date, the model of Python `datetime` restricted to its date
part as used by `fetch_stock_prices`. -/
structure Date where
  year : Nat
  month : Nat
  day : Nat
  deriving Repr, DecidableEq

/-- Gregorian leap-year rule, as implemented by Python `datetime`. -/
def isLeapYear (y : Nat) : Bool :=
  (y % 4 = 0 && ¬ (y % 100 = 0)) || y % 400 = 0

/-- Number of days in a month of a given year. -/
def daysInMonth (y m : Nat) : Nat :=
  if m = 2 then (if isLeapYear y then 29 else 28)
  else if m = 4 || m = 6 || m = 9 || m = 11 then 30
  else 31

/-- `d + timedelta(days=1)`: the next calendar day, with month/year rollover. -/
def nextDay (d : Date) : Date :=
  if d.day < daysInMonth d.year d.month then
    { d with day := d.day + 1 }
  else if d.month < 12 then
    { year := d.year, month := d.month + 1, day := 1 }
  else
    { year := d.year + 1, month := 1, day := 1 }

/-- Zero-pad a numeral to two digits, as `strftime("%m")` / `strftime("%d")` do. -/
def pad2 (n : Nat) : String :=
  if n < 10 then "0" ++ toString n else toString n

/-- Zero-pad a year to four digits, as `strftime("%Y")` does for the years
`datetime` supports. -/
def pad4 (n : Nat) : String :=
  if n < 10 then "000" ++ toString n
  else if n < 100 then "00" ++ toString n
  else if n < 1000 then "0" ++ toString n
  else toString n

/-- `d.strftime("%Y-%m-%d")`. -/
def formatDate (d : Date) : String :=
  pad4 d.year ++ "-" ++ pad2 d.month ++ "-" ++ pad2 d.day

/-- Parse a decimal numeral from its characters, `none` on the empty string
or a non-digit. -/
def parseNat (cs : List Char) : Option Nat :=
  if cs.isEmpty then none
  else if cs.all Char.isDigit then
    some (cs.foldl (fun a c => a * 10 + (c.toNat - 48)) 0)
  else none

/-- Split a character list at `'-'` separators (`cur` is the field read so
far), the backbone of parsing the `"%Y-%m-%d"` format. -/
def splitDash : List Char → List Char → List (List Char)
  | [], cur => [cur]
  | c :: rest, cur =>
    if c = '-' then cur :: splitDash rest []
    else splitDash rest (cur ++ [c])

/-- `datetime.strptime(s, "%Y-%m-%d")`, restricted to the date part: requires
three dash-separated decimal fields forming a valid calendar date
(`strptime` raises `ValueError` otherwise, modelled by `none`). -/
def parseDate (s : String) : Option Date :=
  match splitDash s.data [] with
  | [ys, ms, ds] =>
    match parseNat ys, parseNat ms, parseNat ds with
    | some y, some m, some d =>
      if 1 ≤ m && m ≤ 12 && 1 ≤ d && d ≤ daysInMonth y m then
        some { year := y, month := m, day := d }
      else none
    | _, _, _ => none
  | _ => none

/-- A row of the `yfinance` history dataframe after `reset_index().to_dict`,
before the fetch loop relabels it: the `Date` index cell rendered by
`isoformat()` plus the numeric price columns. -/
structure YfRow where
  Date : String
  Open : Rat
  High : Rat
  Low : Rat
  Close : Rat
  Volume : Rat
  deriving Repr, DecidableEq

/-- The per-row relabelling in the fetch loop
(`utils/etl/fetch_stock_prices.py`, lines 82–86): sets `ticker`, copies the
`Date` cell to `date`, stamps `created_at` with `now`, and drops `Date`. -/
def toRawRecord (ticker now : String) (row : YfRow) : RawRecord :=
  { ticker := ticker, date := row.Date, Open := row.Open, High := row.High,
    Low := row.Low, Close := row.Close, Volume := row.Volume, created_at := now }

/-- `fetch_stock_prices(tickers, start, end)`
(`utils/etl/fetch_stock_prices.py`, lines 41–98).  `history` is the oracle for
`yf.Ticker(t).history(start=..., end=...)`: given the ticker and the start and
(exclusive) end strings it either returns the dataframe rows (possibly empty)
or raises.  `now` is `datetime.now(timezone.utc).isoformat()`.  The
`strptime` of the end date happens before the loop, so a malformed end date
raises `ValueError` (`.error`); inside the loop a raising ticker is caught,
logged and skipped, and an empty dataframe contributes no records. -/
def fetch_stock_prices
    (history : String → String → String → Except String (List YfRow))
    (now : String) (tickers : List String) (start endDate : String) :
    Except String (List RawRecord) :=
  match parseDate endDate with
  | none =>
    .error ("time data does not match format %Y-%m-%d: " ++ endDate)
  | some endDt =>
    let endForFetch := formatDate (nextDay endDt)
    .ok (tickers.foldl (fun acc t =>
      match history t start endForFetch with
      | .ok rows => acc ++ rows.map (toRawRecord t now)
      | .error _ => acc) [])

/-! ## Pipeline orchestrator (`utils/pipeline.py`) -/

/-- A raised Python exception as the orchestrator sees it: its message
(`str(error)`) and the stack trace `traceback.format_exc()` renders for it. -/
structure PipeErr where
  msg : String
  trace : String
  deriving Repr, DecidableEq

/-- One collaborator call made by the orchestrator, in program order.
`report p` is an invocation of the Outcome Reporter, i.e. the
`log_to_gcs(payload, BUCKET_NAME)` write performed by a `handle_etl_*` handler
(the write never raises, see `log_to_gcs_never_raises`); `notified` records the
`notify_slack` call of the same handler when it returns normally. -/
inductive Event where
  | fetch : Event
  | stage (date : String) : Event
  | load (date : String) : Event
  | mergeTemp (tempTableId : String) : Event
  | cleanupTemp (tempTableId : String) : Event
  | transform : Event
  | report (payload : Payload) : Event
  | notified (message : String) (success : Bool) : Event
  deriving Repr, DecidableEq

/-- The environment of one orchestrator invocation: the webhook configuration
and one oracle per collaborator call.  `stageRes d` is the outcome of the
staging upload for the file named after date `d`; `loadRes d` returns the
temporary-table id created for date `d`; `mergeRes`/`cleanupRes` are keyed by
that id. -/
structure PipelineEnv where
  webhookUrl : Option String
  post : Except String Unit
  logUpload : String → Except String Unit
  fetchRes : Except PipeErr (List RawRecord)
  stageRes : String → Except PipeErr Unit
  loadRes : String → Except PipeErr String
  mergeRes : String → Except PipeErr Unit
  cleanupRes : String → Except PipeErr Unit
  transformRes : Except PipeErr Unit
  createdAt : String
  utcNowFile : String
  notifyTrace : String

/-- A `notify_slack` call made from inside a pipeline handler: a `ValueError`
raised by it (unset webhook URL) becomes a pipeline exception. -/
def runNotify (env : PipelineEnv) (message : String) (success : Bool) :
    Except PipeErr NotifyResult :=
  match notify_slack env.webhookUrl env.post message success with
  | .ok r => .ok r
  | .error m => .error { msg := m, trace := env.notifyTrace }

/-- `handle_etl_skip(mode, timestamp, reason)` (`utils/pipeline.py`,
lines 156–177): builds the skip payload, writes it to GCS (never raises),
then notifies Slack with `success=True`. -/
def handle_etl_skip (env : PipelineEnv) (mode timestamp reason : String) :
    List Event × Except PipeErr Unit :=
  let payload := skipPayload mode timestamp reason
  match runNotify env (format_slack_message payload) true with
  | .ok _ => ([.report payload, .notified (format_slack_message payload) true], .ok ())
  | .error e => ([.report payload], .error e)

/-- `handle_etl_success(mode, timestamp, message)` (`utils/pipeline.py`,
lines 180–196). -/
def handle_etl_success (env : PipelineEnv) (mode timestamp message : String) :
    List Event × Except PipeErr Unit :=
  let payload := successPayload mode timestamp message
  match runNotify env (format_slack_message payload) true with
  | .ok _ => ([.report payload, .notified (format_slack_message payload) true], .ok ())
  | .error e => ([.report payload], .error e)

/-- `handle_etl_error(mode, timestamp, error)` (`utils/pipeline.py`,
lines 199–217): builds the error payload, writes it to GCS, notifies Slack
with `success=False`, then re-raises the original error.  If the notify call
itself raises (unset webhook URL), that `ValueError` propagates instead of the
original error. -/
def handle_etl_error (env : PipelineEnv) (mode timestamp : String)
    (error : PipeErr) : List Event × Except PipeErr Unit :=
  let payload := errorPayload mode timestamp error.msg error.trace
  match runNotify env (format_slack_message payload) false with
  | .ok _ => ([.report payload, .notified (format_slack_message payload) false], .error error)
  | .error v => ([.report payload], .error v)

/-- `save_json_to_gcs(bucket_name, formatted_results)`
(`utils/etl/save_json_to_gcs.py`, lines 22–71) as called by the orchestrator:
a no-op on an empty list, otherwise an upload of the NDJSON file named after
the first record's date (a failing upload is re-raised). -/
def save_json_to_gcs (env : PipelineEnv) (records : List FormattedRecord) :
    List Event × Except PipeErr Unit :=
  match records with
  | [] => ([], .ok ())
  | r :: _ => ([.stage r.date], env.stageRes r.date)

/-- Python's `f"...{stock_date}..."` rendering of an `Optional[str]`:
`None` prints as `"None"`. -/
def pyStr : Option String → String
  | none => "None"
  | some s => s

/-- The `try` block of `run_extract_pipeline` (`utils/pipeline.py`,
lines 65–89): fetch, skip on empty, else format → stage → load → merge →
cleanup → transform → success handler. -/
def latestBody (env : PipelineEnv) (timestamp : String) :
    List Event × Except PipeErr Unit :=
  match env.fetchRes with
  | .error e => ([.fetch], .error e)
  | .ok fetchResults =>
    if fetchResults.isEmpty then
      let hs := handle_etl_skip env "etl" timestamp SKIP_REASON
      (Event.fetch :: hs.1, hs.2)
    else
      let fr := format_stock_prices fetchResults env.createdAt
      let sv := save_json_to_gcs env fr.1
      match sv.2 with
      | .error e => ((Event.fetch :: sv.1), .error e)
      | .ok _ =>
        let d := pyStr fr.2
        match env.loadRes d with
        | .error e => ((Event.fetch :: sv.1) ++ [.load d], .error e)
        | .ok tempTableId =>
          match env.mergeRes tempTableId with
          | .error e =>
            ((Event.fetch :: sv.1) ++ [.load d, .mergeTemp tempTableId], .error e)
          | .ok _ =>
            match env.cleanupRes tempTableId with
            | .error e =>
              ((Event.fetch :: sv.1)
                ++ [.load d, .mergeTemp tempTableId, .cleanupTemp tempTableId], .error e)
            | .ok _ =>
              match env.transformRes with
              | .error e =>
                ((Event.fetch :: sv.1)
                  ++ [.load d, .mergeTemp tempTableId, .cleanupTemp tempTableId,
                      .transform], .error e)
              | .ok _ =>
                let hs := handle_etl_success env "etl" timestamp
                  "ETL処理（mode: etl）が正常に完了しました。"
                ((Event.fetch :: sv.1)
                  ++ [.load d, .mergeTemp tempTableId, .cleanupTemp tempTableId,
                      .transform] ++ hs.1, hs.2)

/-- `run_extract_pipeline(tickers)` (`utils/pipeline.py`, lines 51–91):
the `try` body wrapped in `except Exception as e: handle_etl_error(...)`. -/
def run_extract_pipeline (env : PipelineEnv) (timestamp : String) :
    List Event × Except PipeErr Unit :=
  let body := latestBody env timestamp
  match body.2 with
  | .ok _ => (body.1, .ok ())
  | .error e =>
    let he := handle_etl_error env "etl" timestamp e
    (body.1 ++ he.1, he.2)

/-- The `for stock_date, daily_results in grouped_results.items():` loop of
`run_extract_range_pipeline` (`utils/pipeline.py`, lines 127–138): one
stage → load → merge → cleanup cycle per date partition, in mapping order,
aborted by the first raised exception. -/
def processDates (env : PipelineEnv) :
    List (String × List FormattedRecord) → List Event × Except PipeErr Unit
  | [] => ([], .ok ())
  | (stockDate, dailyResults) :: rest =>
    let sv := save_json_to_gcs env dailyResults
    match sv.2 with
    | .error e => (sv.1, .error e)
    | .ok _ =>
      match env.loadRes stockDate with
      | .error e => (sv.1 ++ [.load stockDate], .error e)
      | .ok tempTableId =>
        match env.mergeRes tempTableId with
        | .error e => (sv.1 ++ [.load stockDate, .mergeTemp tempTableId], .error e)
        | .ok _ =>
          match env.cleanupRes tempTableId with
          | .error e =>
            (sv.1 ++ [.load stockDate, .mergeTemp tempTableId, .cleanupTemp tempTableId],
             .error e)
          | .ok _ =>
            let pr := processDates env rest
            (sv.1 ++ [.load stockDate, .mergeTemp tempTableId, .cleanupTemp tempTableId]
              ++ pr.1, pr.2)

/-- The `try` block of `run_extract_range_pipeline` (`utils/pipeline.py`,
lines 117–146). -/
def rangeBody (env : PipelineEnv) (timestamp : String) :
    List Event × Except PipeErr Unit :=
  match env.fetchRes with
  | .error e => ([.fetch], .error e)
  | .ok fetchResults =>
    if fetchResults.isEmpty then
      let hs := handle_etl_skip env "etl_range" timestamp SKIP_REASON
      (Event.fetch :: hs.1, hs.2)
    else
      let groupedResults := format_stock_prices_by_date fetchResults env.createdAt
      let pr := processDates env groupedResults
      match pr.2 with
      | .error e => (Event.fetch :: pr.1, .error e)
      | .ok _ =>
        match env.transformRes with
        | .error e => ((Event.fetch :: pr.1) ++ [.transform], .error e)
        | .ok _ =>
          let hs := handle_etl_success env "etl_range" timestamp
            (toString groupedResults.length ++ "日分のETL処理が正常に完了しました。")
          ((Event.fetch :: pr.1) ++ [.transform] ++ hs.1, hs.2)

/-- `run_extract_range_pipeline(tickers, start_date, end_date)`
(`utils/pipeline.py`, lines 99–148). -/
def run_extract_range_pipeline (env : PipelineEnv) (timestamp : String) :
    List Event × Except PipeErr Unit :=
  let body := rangeBody env timestamp
  match body.2 with
  | .ok _ => (body.1, .ok ())
  | .error e =>
    let he := handle_etl_error env "etl_range" timestamp e
    (body.1 ++ he.1, he.2)

/-! ## Event classifiers used by the orchestrator theorems -/

/-- Is this event a staging write (`save_json_to_gcs` upload)? -/
def isStageEv : Event → Bool
  | .stage _ => true
  | _ => false

/-- Is this event a temp-table load (`load_temp_table`)? -/
def isLoadEv : Event → Bool
  | .load _ => true
  | _ => false

/-- Is this event a merge (`merge_temp_table_to_bq`)? -/
def isMergeEv : Event → Bool
  | .mergeTemp _ => true
  | _ => false

/-- Is this event a temp-table deletion (`delete_temp_table`)? -/
def isCleanupEv : Event → Bool
  | .cleanupTemp _ => true
  | _ => false

/-- Is this event the Analytics Transformer call (`transform_to_analytics_table`)? -/
def isTransformEv : Event → Bool
  | .transform => true
  | _ => false

/-- Is this event an Outcome Reporter invocation whose payload has the given
`status` value? -/
def isReportWithStatus (status : String) : Event → Bool
  | .report p => p.lookup "status" == some status
  | _ => false

/-! ## C4 — the MERGE statement generator -/

/-- **C4.** For key columns `{ticker_id, date}` and value columns
`{open_price, high_price, low_price, close_price, volume, created_at}`,
`build_merge_sql` produces a statement whose ON clause is exactly the
conjunction `T.ticker_id = S.ticker_id AND T.date = S.date`, whose UPDATE SET
list is exactly the six value columns, and whose INSERT column list is exactly
the key columns followed by the value columns — no more, no fewer.  The
equality below substitutes the three computed clause strings into the
statement template, exhibiting each clause verbatim. -/
theorem build_merge_sql_on_update_insert_cols (target temp : String) :
    build_merge_sql target temp KEY_COLS VALUE_COLS =
      "\n    MERGE `" ++ target ++ "` T\n    USING `" ++ temp ++ "` S\n    ON "
        ++ "T.ticker_id = S.ticker_id AND T.date = S.date"
        ++ "\n    WHEN MATCHED THEN\n      UPDATE SET "
        ++ "open_price = S.open_price, high_price = S.high_price, low_price = S.low_price, close_price = S.close_price, volume = S.volume, created_at = S.created_at"
        ++ "\n    WHEN NOT MATCHED THEN\n      INSERT ("
        ++ "ticker_id, date, open_price, high_price, low_price, close_price, volume, created_at"
        ++ ") VALUES ("
        ++ "S.ticker_id, S.date, S.open_price, S.high_price, S.low_price, S.close_price, S.volume, S.created_at"
        ++ ")\n    " := by
  rfl

/-! ## C5 — the notification sink -/

/-- **C5 (counterexample).** The claim says invoking the notification sink
never raises an exception into the pipeline regardless of environment
configuration.  It is false: with `SLACK_WEBHOOK_URL` unset (`os.getenv`
returns `None`) and a webhook POST that would succeed, `notify_slack` raises
`ValueError` before even attempting the POST
(`utils/notify/notifier.py`, lines 35–39). -/
theorem notify_slack_raises_when_webhook_unset :
    notify_slack none (Except.ok ()) "message" true
      = Except.error "SLACK_WEBHOOK_URL is not set in environment variables." := by
  rfl

/-- **C5 (amended).** Provided the `SLACK_WEBHOOK_URL` environment variable is
set to a non-empty string, every outcome notification attempt returns
normally: a failing webhook POST (or non-2xx response) is caught, logged and
swallowed, and never raises into the pipeline. -/
theorem notify_slack_swallows_post_failure_when_configured
    (url : String) (post : Except String Unit) (message : String) (success : Bool)
    (h : ¬ url = "") :
    notify_slack (some url) post message success
      = Except.ok (match post with
          | .ok _ => NotifyResult.sent
          | .error e => NotifyResult.postFailureLogged e) := by
  cases post <;> simp [notify_slack, pyStrFalsy, h]

/-- Witness for C5 (amended): a configured URL with a failing POST — the
failure is swallowed and reported as a logged non-exception result. -/
theorem notify_slack_swallows_post_failure_when_configured_witness :
    notify_slack (some "https://hooks.example/services/T") (Except.error "timeout")
      "message" false
      = Except.ok (NotifyResult.postFailureLogged "timeout") :=
  notify_slack_swallows_post_failure_when_configured
    "https://hooks.example/services/T" (Except.error "timeout") "message" false
    (by decide)

/-! ## C9 — outcome payload fields -/

/-- **C9 (counterexample).** The claim says every outcome payload contains a
`message` field.  The error payload built by `handle_etl_error`
(`utils/pipeline.py`, lines 208–214) has no `message` key — here at a concrete
input its `message` lookup is `none` (which is also why
`format_slack_message` falls back to its `'処理メッセージなし'` default on
error payloads). -/
theorem error_payload_has_no_message_field :
    (errorPayload "etl" "2025-08-04T00:00:00" "boom" "Traceback...").lookup "message"
      = none := by
  rfl

/-- **C9 (amended).** Success and skip payloads contain exactly the fields
`status`, `mode`, `timestamp`, `message` (with `status` respectively
`"success"` / `"skip"`); an error payload contains exactly `status`, `mode`,
`timestamp`, `error_message`, `traceback` (with `status = "error"`) and no
`message` field. -/
theorem outcome_payload_fields (mode timestamp reason message errMsg tb : String) :
    (skipPayload mode timestamp reason).map Prod.fst
        = ["status", "mode", "timestamp", "message"] ∧
    (skipPayload mode timestamp reason).lookup "status" = some "skip" ∧
    (successPayload mode timestamp message).map Prod.fst
        = ["status", "mode", "timestamp", "message"] ∧
    (successPayload mode timestamp message).lookup "status" = some "success" ∧
    (errorPayload mode timestamp errMsg tb).map Prod.fst
        = ["status", "mode", "timestamp", "error_message", "traceback"] ∧
    (errorPayload mode timestamp errMsg tb).lookup "status" = some "error" ∧
    (errorPayload mode timestamp errMsg tb).lookup "message" = none := by
  refine ⟨rfl, rfl, rfl, rfl, rfl, rfl, rfl⟩

/-! ## C10 — the durable outcome log never raises -/

/-- **C10.** For every payload and every behaviour of the storage client,
`log_to_gcs` returns normally: an exception raised during the log write is
caught and logged (`utils/logger.py`, lines 91–92), so a failure to persist
the outcome record never aborts the pipeline run. -/
theorem log_to_gcs_never_raises (upload : String → Except String Unit)
    (payload : Payload) (now : String) :
    ∃ r, log_to_gcs upload payload now = .ok r := by
  cases h : upload ("logs/" ++ now ++ "_" ++ ((payload.lookup "status").getD "log") ++ ".json") with
  | ok u =>
    exact ⟨.saved ("logs/" ++ now ++ "_" ++ ((payload.lookup "status").getD "log") ++ ".json"),
      by simp [log_to_gcs, h]⟩
  | error e => exact ⟨.uploadFailureLogged e, by simp [log_to_gcs, h]⟩

/-! ## C6 — the flat formatter -/

/-- The formatted list is exactly one `formatOne` image per input record,
whatever the running `stock_date` accumulator is. -/
lemma formatLoop_fst (c : String) :
    ∀ (rs : List RawRecord) (sd : Option String),
      (formatLoop c rs sd).1 = rs.map (formatOne c)
  | [], _ => rfl
  | _ :: rs, sd => by
    simp [formatLoop, formatLoop_fst c rs]

/-- Once `stock_date` holds a non-empty string it is never overwritten. -/
lemma formatLoop_snd_of_set (c : String) (d : String) (hd : ¬ d = "") :
    ∀ (rs : List RawRecord), (formatLoop c rs (some d)).2 = some d
  | [] => rfl
  | _ :: rs => by
    simp [formatLoop, pyStrFalsy, hd, formatLoop_snd_of_set c d hd rs]

/-- Each input record is pointwise related, field by field, to its
`formatOne` image. -/
lemma formatted_pointwise (c : String) : ∀ (rs : List RawRecord),
    List.Forall₂ (fun (raw : RawRecord) (f : FormattedRecord) =>
        f.ticker_id = raw.ticker ∧ f.date = raw.date.take 10 ∧
        f.open_price = raw.Open ∧ f.high_price = raw.High ∧
        f.low_price = raw.Low ∧ f.close_price = raw.Close ∧
        f.volume = ratTruncInt raw.Volume ∧ f.created_at = c)
      rs (rs.map (formatOne c))
  | [] => .nil
  | a :: l => .cons (by simp [formatOne]) (formatted_pointwise c l)

/-- **C6.** For every non-empty list of valid raw records (the first record's
truncated date is non-empty, as any real `isoformat()` date is),
`format_stock_prices` produces exactly one formatted record per input record —
same length, and pointwise: `ticker_id` is the raw ticker, `date` is the first
10 characters of that record's own date field, the four prices are the raw
prices through `float()` (identity on the exact carrier), `volume` is the raw
volume through `int()` — and the returned `stock_date` is the date of the
*first* input record, not sorted and not deduplicated. -/
theorem format_stock_prices_one_per_record (c : String) (r : RawRecord)
    (rest : List RawRecord) (h : ¬ r.date.take 10 = "") :
    (format_stock_prices (r :: rest) c).1.length = (r :: rest).length ∧
    List.Forall₂ (fun (raw : RawRecord) (f : FormattedRecord) =>
        f.ticker_id = raw.ticker ∧ f.date = raw.date.take 10 ∧
        f.open_price = raw.Open ∧ f.high_price = raw.High ∧
        f.low_price = raw.Low ∧ f.close_price = raw.Close ∧
        f.volume = ratTruncInt raw.Volume ∧ f.created_at = c)
      (r :: rest) (format_stock_prices (r :: rest) c).1 ∧
    (format_stock_prices (r :: rest) c).2 = some (r.date.take 10) := by
  have hfst : (format_stock_prices (r :: rest) c).1 = (r :: rest).map (formatOne c) :=
    formatLoop_fst c (r :: rest) none
  refine ⟨?_, ?_, ?_⟩
  · rw [hfst, List.length_map]
  · rw [hfst]
    exact formatted_pointwise c (r :: rest)
  · show (formatLoop c (r :: rest) none).2 = some (r.date.take 10)
    simp only [formatLoop, pyStrFalsy]
    exact formatLoop_snd_of_set c (r.date.take 10) h rest

set_option maxHeartbeats 1000000 in
/-- Witness for C6: a two-record input whose dates are out of order — the
returned `stock_date` is the first record's date (`2025-08-05`), not the
minimum. -/
theorem format_stock_prices_one_per_record_witness :
    (format_stock_prices
        [{ ticker := "AAPL", date := "2025-08-05T00:00:00-04:00", Open := 10, High := 11,
           Low := 9, Close := 21/2, Volume := 1000, created_at := "f" },
         { ticker := "AAPL", date := "2025-08-04T00:00:00-04:00", Open := 1, High := 2,
           Low := 1, Close := 2, Volume := 7, created_at := "f" }]
        "2025-08-06 09:00:00").2 = some "2025-08-05" :=
  (format_stock_prices_one_per_record "2025-08-06 09:00:00"
    { ticker := "AAPL", date := "2025-08-05T00:00:00-04:00", Open := 10, High := 11,
      Low := 9, Close := 21/2, Volume := 1000, created_at := "f" }
    [{ ticker := "AAPL", date := "2025-08-04T00:00:00-04:00", Open := 1, High := 2,
       Low := 1, Close := 2, Volume := 7, created_at := "f" }]
    (by decide)).2.2

/-! ## C8 — the price source adapter -/

/-- The per-ticker fetch loop, expressed as a flat map: every ticker is
visited regardless of earlier failures, a failing ticker contributes no
records, and successes are concatenated in ticker order. -/
lemma fetch_loop_flatMap
    (history : String → String → String → Except String (List YfRow))
    (now start endFF : String) :
    ∀ (tickers : List String) (acc : List RawRecord),
      tickers.foldl (fun acc t =>
          match history t start endFF with
          | .ok rows => acc ++ rows.map (toRawRecord t now)
          | .error _ => acc) acc
        = acc ++ tickers.flatMap (fun t =>
            match history t start endFF with
            | .ok rows => rows.map (toRawRecord t now)
            | .error _ => [])
  | [], acc => by simp
  | t :: ts, acc => by
    cases h : history t start endFF with
    | ok rows =>
      simp only [List.foldl_cons, h, List.flatMap_cons,
        fetch_loop_flatMap history now start endFF ts, List.append_assoc]
    | error e =>
      simp only [List.foldl_cons, h, List.flatMap_cons,
        fetch_loop_flatMap history now start endFF ts, List.nil_append]

/-- **C8.** For every ticker list and well-formed end date, the adapter
returns normally (`.ok`, never raises): the result is the concatenation, over
all tickers in order, of each ticker's fetched rows — a ticker whose upstream
query raises is skipped and contributes zero records without aborting the
rest — and every upstream query is issued with the exclusive end date
`end + timedelta(days=1)`, making the caller-visible window inclusive on both
ends. -/
theorem fetch_stock_prices_skips_failing_tickers
    (history : String → String → String → Except String (List YfRow))
    (now : String) (tickers : List String) (start endDate : String) (d : Date)
    (h : parseDate endDate = some d) :
    fetch_stock_prices history now tickers start endDate
      = .ok (tickers.flatMap (fun t =>
          match history t start (formatDate (nextDay d)) with
          | .ok rows => rows.map (toRawRecord t now)
          | .error _ => [])) := by
  simp only [fetch_stock_prices, h]
  rw [fetch_loop_flatMap, List.nil_append]

set_option maxHeartbeats 1000000 in
/-- Witness for C8: two tickers, the second one raising — the fetch still
returns `.ok` with exactly the first ticker's record, and the upstream was
queried with the day after the requested inclusive end date. -/
theorem fetch_stock_prices_skips_failing_tickers_witness :
    parseDate "2025-08-04" = some { year := 2025, month := 8, day := 4 } ∧
    fetch_stock_prices
        (fun t _ endEx =>
          if t = "AAPL" ∧ endEx = "2025-08-05" then
            .ok [{ Date := "2025-08-04T00:00:00-04:00", Open := 1, High := 2,
                   Low := 1, Close := 2, Volume := 5 }]
          else .error "HTTPError")
        "NOW" ["AAPL", "BROKEN"] "2025-08-01" "2025-08-04"
      = .ok [toRawRecord "AAPL" "NOW"
          { Date := "2025-08-04T00:00:00-04:00", Open := 1, High := 2,
            Low := 1, Close := 2, Volume := 5 }] := by
  refine ⟨by rfl, ?_⟩
  rw [fetch_stock_prices_skips_failing_tickers _ _ _ _ _
    { year := 2025, month := 8, day := 4 } (by rfl)]
  rfl

/-! ## C7 — the grouping formatter -/

/-- Membership in `firstSeen l` is membership in `l`. -/
lemma firstSeen_mem : ∀ (l : List String) (x : String), x ∈ firstSeen l ↔ x ∈ l := by
  have H : ∀ (n : Nat) (l : List String), l.length ≤ n →
      ∀ x, (x ∈ firstSeen l ↔ x ∈ l) := by
    intro n
    induction n with
    | zero =>
      intro l hl x
      have : l = [] := List.eq_nil_of_length_eq_zero (Nat.le_zero.mp hl)
      subst this
      simp [firstSeen]
    | succ n ih =>
      intro l hl x
      match l with
      | [] => simp [firstSeen]
      | a :: t =>
        rw [firstSeen]
        simp only [List.mem_cons]
        rw [ih (t.filter (fun b => ¬ (b = a)))
          (le_trans (List.length_filter_le _ _) (Nat.le_of_succ_le_succ hl))]
        by_cases hxa : x = a <;> simp [List.mem_filter, hxa]
  exact fun l x => H l.length l le_rfl x

/-- `firstSeen l` has no duplicate keys. -/
lemma firstSeen_nodup : ∀ (l : List String), (firstSeen l).Nodup := by
  have H : ∀ (n : Nat) (l : List String), l.length ≤ n → (firstSeen l).Nodup := by
    intro n
    induction n with
    | zero =>
      intro l hl
      have : l = [] := List.eq_nil_of_length_eq_zero (Nat.le_zero.mp hl)
      subst this
      simp [firstSeen]
    | succ n ih =>
      intro l hl
      match l with
      | [] => simp [firstSeen]
      | a :: t =>
        rw [firstSeen]
        refine List.nodup_cons.mpr ⟨?_, ih _ (le_trans (List.length_filter_le _ _)
          (Nat.le_of_succ_le_succ hl))⟩
        rw [firstSeen_mem]
        simp [List.mem_filter]
  exact fun l => H l.length l le_rfl

/-- Appending a new element: a key already seen leaves `firstSeen` unchanged,
a fresh key is appended at the end. -/
lemma firstSeen_append (p : String) : ∀ (l : List String),
    firstSeen (l ++ [p]) = if p ∈ l then firstSeen l else firstSeen l ++ [p] := by
  have H : ∀ (n : Nat) (l : List String), l.length ≤ n →
      firstSeen (l ++ [p]) = if p ∈ l then firstSeen l else firstSeen l ++ [p] := by
    intro n
    induction n with
    | zero =>
      intro l hl
      have : l = [] := List.eq_nil_of_length_eq_zero (Nat.le_zero.mp hl)
      subst this
      simp [firstSeen]
    | succ n ih =>
      intro l hl
      match l with
      | [] => simp [firstSeen]
      | a :: t =>
        rw [List.cons_append, firstSeen, firstSeen, List.filter_append]
        by_cases hpa : p = a
        · subst hpa
          simp [List.filter]
        · have hfilter : List.filter (fun b => ¬ (b = a)) [p] = [p] := by
            simp [List.filter, hpa]
          rw [hfilter, ih (t.filter (fun b => ¬ (b = a)))
            (le_trans (List.length_filter_le _ _) (Nat.le_of_succ_le_succ hl))]
          by_cases hpt : p ∈ t
          · simp [List.mem_filter, hpa, hpt]
          · have : ¬ p ∈ t.filter (fun b => ¬ (b = a)) := by
              simp [List.mem_filter, hpt]
            simp [this, hpa, hpt]
  exact fun l => H l.length l le_rfl

/-- Inserting one record into a keyed map of the canonical shape: an existing
key gets the record appended to its list in place, a fresh key is appended at
the end of the mapping. -/
lemma insertGrouped_map (g : String → List FormattedRecord) (p : String) (f : FormattedRecord) :
    ∀ (ks : List String), ks.Nodup →
      insertGrouped (ks.map (fun d => (d, g d))) p f =
        if p ∈ ks then ks.map (fun d => (d, if d = p then g d ++ [f] else g d))
        else ks.map (fun d => (d, g d)) ++ [(p, [f])] := by
  intro ks
  induction ks with
  | nil => intro _; simp [insertGrouped]
  | cons a t ih =>
    intro hnd
    have ha : a ∉ t := (List.nodup_cons.mp hnd).1
    by_cases hap : a = p
    · subst hap
      have hmap : t.map (fun d => (d, if d = a then g d ++ [f] else g d))
          = t.map (fun d => (d, g d)) := by
        apply List.map_congr_left
        intro d hd
        have hda : ¬ d = a := fun h => ha (h ▸ hd)
        simp [hda]
      simp [insertGrouped, hmap]
    · have hpa : ¬ p = a := fun h => hap h.symm
      rw [List.map_cons]
      have h1 : insertGrouped ((a, g a) :: t.map (fun d => (d, g d))) p f
          = (a, g a) :: insertGrouped (t.map (fun d => (d, g d))) p f := by
        simp [insertGrouped, hap]
      rw [h1, ih (List.nodup_cons.mp hnd).2]
      by_cases hpt : p ∈ t
      · have hmem : p ∈ a :: t := List.mem_cons_of_mem _ hpt
        simp [hpt, hmem, hap]
      · have hmem : ¬ p ∈ a :: t := by simp [List.mem_cons, hpt, hpa]
        simp [hpt, hmem]

/-- Closed form of `format_stock_prices_by_date`: the mapping is exactly one
entry per distinct truncated date in first-seen order, and the entry for key
`d` holds the `formatOne` images of the input records with truncated date `d`,
in input order. -/
lemma format_by_date_closed (c : String) : ∀ (rs : List RawRecord),
    format_stock_prices_by_date rs c
      = (firstSeen (rs.map (fun x => x.date.take 10))).map
          (fun d => (d, (rs.filter (fun x => x.date.take 10 = d)).map (formatOne c))) := by
  intro rs
  induction rs using List.reverseRecOn with
  | nil => simp [format_stock_prices_by_date, firstSeen]
  | append_singleton rs r ih =>
    have hstep : format_stock_prices_by_date (rs ++ [r]) c
        = insertGrouped (format_stock_prices_by_date rs c) (r.date.take 10) (formatOne c r) := by
      simp [format_stock_prices_by_date, List.foldl_append]
    rw [hstep, ih, insertGrouped_map _ _ _ _ (firstSeen_nodup _)]
    rw [List.map_append]
    simp only [List.map_cons, List.map_nil]
    rw [firstSeen_append]
    by_cases hmem : r.date.take 10 ∈ rs.map (fun x => x.date.take 10)
    · rw [if_pos ((firstSeen_mem _ _).mpr hmem), if_pos hmem]
      apply List.map_congr_left
      intro d hd
      by_cases hdp : d = r.date.take 10
      · have hqr : (decide (r.date.take 10 = d)) = true := decide_eq_true hdp.symm
        rw [if_pos hdp]
        simp only [List.filter_append, List.filter_cons, List.filter_nil, hqr,
          if_true, List.map_append, List.map_cons, List.map_nil]
      · have hqr : (decide (r.date.take 10 = d)) = false :=
          decide_eq_false (fun h => hdp h.symm)
        rw [if_neg hdp]
        simp only [List.filter_append, List.filter_cons, List.filter_nil, hqr,
          Bool.false_eq_true, if_false, List.append_nil]
    · rw [if_neg (fun h => hmem ((firstSeen_mem _ _).mp h)), if_neg hmem, List.map_append]
      have hnil : rs.filter (fun x => decide (x.date.take 10 = r.date.take 10)) = [] := by
        refine List.filter_eq_nil_iff.mpr ?_
        intro x hx hcontra
        exact hmem (List.mem_map.mpr ⟨x, hx, of_decide_eq_true hcontra⟩)
      congr 1
      · apply List.map_congr_left
        intro d hd
        have hdp : ¬ d = r.date.take 10 :=
          fun h => hmem (h ▸ ((firstSeen_mem _ _).mp hd))
        have hqr : (decide (r.date.take 10 = d)) = false :=
          decide_eq_false (fun h => hdp h.symm)
        simp only [List.filter_append, List.filter_cons, List.filter_nil, hqr,
          Bool.false_eq_true, if_false, List.append_nil]
      · have hqr : (decide (r.date.take 10 = r.date.take 10)) = true := decide_eq_true rfl
        simp only [List.map_cons, List.filter_append, List.filter_cons, List.filter_nil, hqr,
          if_true, hnil, List.map_append, List.map_nil, List.nil_append]
        simp

/-- **C7.** For every input, the grouped mapping of `format_stock_prices_by_date`
is exactly: one key per distinct 10-character date substring, in first-seen
input order, each key's list holding that date's formatted records in input
order (the closed form); consequently every record stored under key `d` has
`date = d`, and every input record lands under the key equal to its own date
substring — so any two inputs with equal date substrings share a mapping key. -/
theorem format_stock_prices_by_date_grouping (rs : List RawRecord) (c : String) :
    format_stock_prices_by_date rs c
        = (firstSeen (rs.map (fun x => x.date.take 10))).map
            (fun d => (d, (rs.filter (fun x => x.date.take 10 = d)).map (formatOne c))) ∧
    (∀ d recs, (d, recs) ∈ format_stock_prices_by_date rs c → ∀ f ∈ recs, f.date = d) ∧
    (∀ x ∈ rs, ∃ recs, (x.date.take 10, recs) ∈ format_stock_prices_by_date rs c ∧
        formatOne c x ∈ recs) := by
  refine ⟨format_by_date_closed c rs, ?_, ?_⟩
  · intro d recs hmem f hf
    rw [format_by_date_closed c rs] at hmem
    rcases List.mem_map.mp hmem with ⟨d', hd', heq⟩
    have hd : d' = d := congrArg Prod.fst heq
    have hrecs : (rs.filter (fun x => x.date.take 10 = d')).map (formatOne c) = recs :=
      congrArg Prod.snd heq
    rw [← hrecs] at hf
    rcases List.mem_map.mp hf with ⟨x, hx, rfl⟩
    have h1 : (formatOne c x).date = x.date.take 10 := by simp [formatOne]
    have h2 : x.date.take 10 = d' := of_decide_eq_true (List.mem_filter.mp hx).2
    rw [h1, h2, hd]
  · intro x hx
    refine ⟨(rs.filter (fun y => y.date.take 10 = x.date.take 10)).map (formatOne c), ?_, ?_⟩
    · rw [format_by_date_closed c rs]
      refine List.mem_map.mpr ⟨x.date.take 10, ?_, rfl⟩
      rw [firstSeen_mem]
      exact List.mem_map_of_mem _ hx
    · refine List.mem_map.mpr ⟨x, ?_, rfl⟩
      exact List.mem_filter.mpr ⟨hx, decide_eq_true rfl⟩

/-- The skip payload's `status` field. -/
lemma skipPayload_status (m t r : String) : (skipPayload m t r).lookup "status" = some "skip" := rfl

/-- The success payload's `status` field. -/
lemma successPayload_status (m t msg : String) :
    (successPayload m t msg).lookup "status" = some "success" := rfl

/-- The error payload's `status` field. -/
lemma errorPayload_status (m t a b : String) :
    (errorPayload m t a b).lookup "status" = some "error" := rfl

/-- With the webhook URL configured, `handle_etl_skip` reports the skip
payload, notifies, and returns normally. -/
lemma handle_etl_skip_configured (env : PipelineEnv) (mode timestamp reason u : String)
    (hw : env.webhookUrl = some u) (hu : ¬ u = "") :
    handle_etl_skip env mode timestamp reason
      = ([.report (skipPayload mode timestamp reason),
          .notified (format_slack_message (skipPayload mode timestamp reason)) true], .ok ()) := by
  cases hp : env.post with
  | ok v => simp [handle_etl_skip, runNotify, notify_slack, pyStrFalsy, hw, hu, hp]
  | error e => simp [handle_etl_skip, runNotify, notify_slack, pyStrFalsy, hw, hu, hp]

/-- With the webhook URL configured, `handle_etl_success` reports the success
payload, notifies, and returns normally. -/
lemma handle_etl_success_configured (env : PipelineEnv) (mode timestamp message u : String)
    (hw : env.webhookUrl = some u) (hu : ¬ u = "") :
    handle_etl_success env mode timestamp message
      = ([.report (successPayload mode timestamp message),
          .notified (format_slack_message (successPayload mode timestamp message)) true], .ok ()) := by
  cases hp : env.post with
  | ok v => simp [handle_etl_success, runNotify, notify_slack, pyStrFalsy, hw, hu, hp]
  | error e => simp [handle_etl_success, runNotify, notify_slack, pyStrFalsy, hw, hu, hp]

/-- With the webhook URL configured, `handle_etl_error` reports the error
payload, notifies, and re-raises the original error (`raise error`,
`utils/pipeline.py` line 217). -/
lemma handle_etl_error_configured (env : PipelineEnv) (mode timestamp u : String) (e : PipeErr)
    (hw : env.webhookUrl = some u) (hu : ¬ u = "") :
    handle_etl_error env mode timestamp e
      = ([.report (errorPayload mode timestamp e.msg e.trace),
          .notified (format_slack_message (errorPayload mode timestamp e.msg e.trace)) false],
         .error e) := by
  cases hp : env.post with
  | ok v => simp [handle_etl_error, runNotify, notify_slack, pyStrFalsy, hw, hu, hp]
  | error e' => simp [handle_etl_error, runNotify, notify_slack, pyStrFalsy, hw, hu, hp]

/-- A skip report is not an error report. -/
lemma not_error_report_skip (m t r : String) :
    isReportWithStatus "error" (Event.report (skipPayload m t r)) = false := by
  show ((skipPayload m t r).lookup "status" == some "error") = false
  rw [skipPayload_status]
  rfl

/-- A success report is not an error report. -/
lemma not_error_report_success (m t msg : String) :
    isReportWithStatus "error" (Event.report (successPayload m t msg)) = false := by
  show ((successPayload m t msg).lookup "status" == some "error") = false
  rw [successPayload_status]
  rfl

/-- The skip handler never emits an error-status report. -/
lemma handle_etl_skip_no_error_report (env : PipelineEnv) (m t r : String) :
    ((handle_etl_skip env m t r).1).countP (isReportWithStatus "error") = 0 := by
  unfold handle_etl_skip
  cases hn : runNotify env (format_slack_message (skipPayload m t r)) true with
  | ok v =>
    simp only [hn, List.countP_cons, List.countP_nil, not_error_report_skip, isReportWithStatus,
      Bool.false_eq_true, if_false, Nat.add_zero]
    simp only [skipPayload_status]
    rfl
  | error e =>
    simp only [hn, List.countP_cons, List.countP_nil, not_error_report_skip,
      Bool.false_eq_true, if_false, Nat.add_zero]

/-- The success handler never emits an error-status report. -/
lemma handle_etl_success_no_error_report (env : PipelineEnv) (m t msg : String) :
    ((handle_etl_success env m t msg).1).countP (isReportWithStatus "error") = 0 := by
  unfold handle_etl_success
  cases hn : runNotify env (format_slack_message (successPayload m t msg)) true with
  | ok v =>
    simp only [hn, List.countP_cons, List.countP_nil, not_error_report_success, isReportWithStatus,
      Bool.false_eq_true, if_false, Nat.add_zero]
    simp only [successPayload_status]
    rfl
  | error e =>
    simp only [hn, List.countP_cons, List.countP_nil, not_error_report_success,
      Bool.false_eq_true, if_false, Nat.add_zero]

/-- The staging writer emits no report events at all. -/
lemma save_json_no_error_report (env : PipelineEnv) (recs : List FormattedRecord) :
    ((save_json_to_gcs env recs).1).countP (isReportWithStatus "error") = 0 := by
  cases recs with
  | nil => simp [save_json_to_gcs]
  | cons r t => simp [save_json_to_gcs, isReportWithStatus]

/-- The `try` body of `run_extract_pipeline` never emits an error-status
report: only the wrapping `except` clause does. -/
lemma latestBody_no_error_report (env : PipelineEnv) (ts : String) :
    ((latestBody env ts).1).countP (isReportWithStatus "error") = 0 := by
  unfold latestBody
  cases hf : env.fetchRes with
  | error e => simp [isReportWithStatus]
  | ok rs =>
    by_cases hemp : rs.isEmpty
    · simp only [hemp, if_true, List.countP_cons, isReportWithStatus,
        Bool.false_eq_true, if_false, Nat.add_zero]
      exact handle_etl_skip_no_error_report env "etl" ts SKIP_REASON
    · simp only [hemp, if_false, Bool.false_eq_true]
      cases hsv : (save_json_to_gcs env (format_stock_prices rs env.createdAt).1).2 with
      | error e =>
        simp only [hsv, List.countP_cons, isReportWithStatus,
          Bool.false_eq_true, if_false, Nat.add_zero]
        exact save_json_no_error_report env _
      | ok v =>
        simp only [hsv]
        cases hl : env.loadRes (pyStr (format_stock_prices rs env.createdAt).2) with
        | error e =>
          simp [List.countP_append, List.countP_cons, isReportWithStatus,
            save_json_no_error_report]
        | ok tempId =>
          simp only [hl]
          cases hm : env.mergeRes tempId with
          | error e =>
            simp [List.countP_append, List.countP_cons, isReportWithStatus,
              save_json_no_error_report]
          | ok v2 =>
            simp only [hm]
            cases hc : env.cleanupRes tempId with
            | error e =>
              simp [List.countP_append, List.countP_cons, isReportWithStatus,
                save_json_no_error_report]
            | ok v3 =>
              simp only [hc]
              cases ht : env.transformRes with
              | error e =>
                simp [List.countP_append, List.countP_cons, isReportWithStatus,
                  save_json_no_error_report]
              | ok v4 =>
                simp only [ht, List.countP_append, List.countP_cons, List.countP_nil,
                  isReportWithStatus, Bool.false_eq_true, if_false, Nat.add_zero,
                  save_json_no_error_report, handle_etl_success_no_error_report,
                  Nat.zero_add]

/-- The per-date loop emits no report events. -/
lemma processDates_no_error_report (env : PipelineEnv) :
    ∀ (gs : List (String × List FormattedRecord)),
      ((processDates env gs).1).countP (isReportWithStatus "error") = 0 := by
  intro gs
  induction gs with
  | nil => simp [processDates]
  | cons hd rest ih =>
    obtain ⟨d, recs⟩ := hd
    unfold processDates
    cases hsv : (save_json_to_gcs env recs).2 with
    | error e =>
      simp only [hsv]
      exact save_json_no_error_report env recs
    | ok v =>
      simp only [hsv]
      cases hl : env.loadRes d with
      | error e =>
        simp [List.countP_append, List.countP_cons, isReportWithStatus, save_json_no_error_report]
      | ok tempId =>
        simp only [hl]
        cases hm : env.mergeRes tempId with
        | error e =>
          simp [List.countP_append, List.countP_cons, isReportWithStatus, save_json_no_error_report]
        | ok v2 =>
          simp only [hm]
          cases hc : env.cleanupRes tempId with
          | error e =>
            simp [List.countP_append, List.countP_cons, isReportWithStatus, save_json_no_error_report]
          | ok v3 =>
            simp only [hc]
            simp [List.countP_append, List.countP_cons, isReportWithStatus,
              save_json_no_error_report, ih]

/-- The `try` body of `run_extract_range_pipeline` never emits an error-status
report. -/
lemma rangeBody_no_error_report (env : PipelineEnv) (ts : String) :
    ((rangeBody env ts).1).countP (isReportWithStatus "error") = 0 := by
  unfold rangeBody
  cases hf : env.fetchRes with
  | error e => simp [isReportWithStatus]
  | ok rs =>
    by_cases hemp : rs.isEmpty
    · simp only [hemp, if_true, List.countP_cons, isReportWithStatus,
        Bool.false_eq_true, if_false, Nat.add_zero]
      exact handle_etl_skip_no_error_report env "etl_range" ts SKIP_REASON
    · simp only [hemp, if_false, Bool.false_eq_true]
      cases hp : (processDates env (format_stock_prices_by_date rs env.createdAt)).2 with
      | error e =>
        simp only [hp, List.countP_cons, isReportWithStatus,
          Bool.false_eq_true, if_false, Nat.add_zero]
        exact processDates_no_error_report env _
      | ok v =>
        simp only [hp]
        cases ht : env.transformRes with
        | error e =>
          simp [List.countP_append, List.countP_cons, isReportWithStatus,
            processDates_no_error_report]
        | ok v2 =>
          simp only [ht, List.countP_append, List.countP_cons, List.countP_nil,
            isReportWithStatus, Bool.false_eq_true, if_false, Nat.add_zero, Nat.zero_add,
            processDates_no_error_report, handle_etl_success_no_error_report]

/-- The error payload's report event has status `error`. -/
lemma error_report_is_error (m t a b : String) :
    isReportWithStatus "error" (Event.report (errorPayload m t a b)) = true := by
  show ((errorPayload m t a b).lookup "status" == some "error") = true
  simp only [errorPayload_status]
  rfl

/-- The skip payload's report event has status `skip`. -/
lemma skip_report_is_skip (m t r : String) :
    isReportWithStatus "skip" (Event.report (skipPayload m t r)) = true := by
  show ((skipPayload m t r).lookup "status" == some "skip") = true
  simp only [skipPayload_status]
  rfl

/-- **C1.** With the notification webhook configured, whenever any step inside
the `try` body of `run_extract_pipeline` or `run_extract_range_pipeline`
raises (i.e. the body ends in `.error e`), the operation appends exactly one
Outcome Reporter invocation whose payload has status `error` and carries
the error's message and stack trace, and then re-raises the same exception to
the caller — no recovery: the result is still `.error e`, and the whole trace
contains exactly one error-status report. -/
theorem run_pipelines_report_error_and_reraise (env : PipelineEnv) (ts u : String) (e : PipeErr)
    (hw : env.webhookUrl = some u) (hu : ¬ u = "") :
    ((latestBody env ts).2 = .error e →
      run_extract_pipeline env ts
        = ((latestBody env ts).1
            ++ [.report (errorPayload "etl" ts e.msg e.trace),
                .notified (format_slack_message (errorPayload "etl" ts e.msg e.trace)) false],
           .error e) ∧
      (run_extract_pipeline env ts).1.countP (isReportWithStatus "error") = 1) ∧
    ((rangeBody env ts).2 = .error e →
      run_extract_range_pipeline env ts
        = ((rangeBody env ts).1
            ++ [.report (errorPayload "etl_range" ts e.msg e.trace),
                .notified (format_slack_message (errorPayload "etl_range" ts e.msg e.trace)) false],
           .error e) ∧
      (run_extract_range_pipeline env ts).1.countP (isReportWithStatus "error") = 1) := by
  constructor
  · intro hb
    have htrace : run_extract_pipeline env ts
        = ((latestBody env ts).1
            ++ [.report (errorPayload "etl" ts e.msg e.trace),
                .notified (format_slack_message (errorPayload "etl" ts e.msg e.trace)) false],
           .error e) := by
      unfold run_extract_pipeline
      simp only [hb, handle_etl_error_configured env "etl" ts u e hw hu]
    refine ⟨htrace, ?_⟩
    rw [htrace]
    simp only [List.countP_append, List.countP_cons, List.countP_nil,
      latestBody_no_error_report, error_report_is_error, isReportWithStatus,
      if_true, Bool.false_eq_true, if_false, Nat.add_zero, Nat.zero_add]
    simp only [errorPayload_status]
    rfl
  · intro hb
    have htrace : run_extract_range_pipeline env ts
        = ((rangeBody env ts).1
            ++ [.report (errorPayload "etl_range" ts e.msg e.trace),
                .notified (format_slack_message (errorPayload "etl_range" ts e.msg e.trace)) false],
           .error e) := by
      unfold run_extract_range_pipeline
      simp only [hb, handle_etl_error_configured env "etl_range" ts u e hw hu]
    refine ⟨htrace, ?_⟩
    rw [htrace]
    simp only [List.countP_append, List.countP_cons, List.countP_nil,
      rangeBody_no_error_report, error_report_is_error, isReportWithStatus,
      if_true, Bool.false_eq_true, if_false, Nat.add_zero, Nat.zero_add]
    simp only [errorPayload_status]
    rfl

/-- **C2.** With the notification webhook configured, when the Price Source
Adapter returns an empty result both `run_extract_pipeline` and
`run_extract_range_pipeline` emit exactly one skip outcome and return
normally, and their traces contain no staging write, no temp-table load, no
merge, no cleanup and no Analytics Transformer call — the warehouse is
untouched. -/
theorem run_pipelines_skip_on_empty_fetch (env : PipelineEnv) (ts u : String)
    (hw : env.webhookUrl = some u) (hu : ¬ u = "") (hf : env.fetchRes = .ok []) :
    run_extract_pipeline env ts
      = ([.fetch, .report (skipPayload "etl" ts SKIP_REASON),
          .notified (format_slack_message (skipPayload "etl" ts SKIP_REASON)) true], .ok ()) ∧
    run_extract_range_pipeline env ts
      = ([.fetch, .report (skipPayload "etl_range" ts SKIP_REASON),
          .notified (format_slack_message (skipPayload "etl_range" ts SKIP_REASON)) true], .ok ()) ∧
    (run_extract_pipeline env ts).1.countP (isReportWithStatus "skip") = 1 ∧
    (run_extract_range_pipeline env ts).1.countP (isReportWithStatus "skip") = 1 ∧
    (run_extract_pipeline env ts).1.countP isStageEv = 0 ∧
    (run_extract_pipeline env ts).1.countP isLoadEv = 0 ∧
    (run_extract_pipeline env ts).1.countP isMergeEv = 0 ∧
    (run_extract_pipeline env ts).1.countP isCleanupEv = 0 ∧
    (run_extract_pipeline env ts).1.countP isTransformEv = 0 ∧
    (run_extract_range_pipeline env ts).1.countP isStageEv = 0 ∧
    (run_extract_range_pipeline env ts).1.countP isLoadEv = 0 ∧
    (run_extract_range_pipeline env ts).1.countP isMergeEv = 0 ∧
    (run_extract_range_pipeline env ts).1.countP isCleanupEv = 0 ∧
    (run_extract_range_pipeline env ts).1.countP isTransformEv = 0 := by
  have h1 : run_extract_pipeline env ts
      = ([.fetch, .report (skipPayload "etl" ts SKIP_REASON),
          .notified (format_slack_message (skipPayload "etl" ts SKIP_REASON)) true], .ok ()) := by
    unfold run_extract_pipeline latestBody
    simp only [hf, List.isEmpty_nil, if_true,
      handle_etl_skip_configured env "etl" ts SKIP_REASON u hw hu]
  have h2 : run_extract_range_pipeline env ts
      = ([.fetch, .report (skipPayload "etl_range" ts SKIP_REASON),
          .notified (format_slack_message (skipPayload "etl_range" ts SKIP_REASON)) true], .ok ()) := by
    unfold run_extract_range_pipeline rangeBody
    simp only [hf, List.isEmpty_nil, if_true,
      handle_etl_skip_configured env "etl_range" ts SKIP_REASON u hw hu]
  refine ⟨h1, h2, ?_, ?_, ?_, ?_, ?_, ?_, ?_, ?_, ?_, ?_, ?_, ?_⟩ <;>
    simp only [h1, h2] <;>
    simp only [List.countP_cons, List.countP_nil, skip_report_is_skip, isReportWithStatus,
      isStageEv, isLoadEv, isMergeEv, isCleanupEv, isTransformEv,
      if_true, Bool.false_eq_true, if_false, Nat.add_zero, Nat.zero_add] <;>
    simp [skipPayload_status]

/-- A fully healthy test environment: webhook configured, all collaborator
calls succeed, fetch returns nothing. -/
def baseEnv : PipelineEnv :=
  { webhookUrl := some "https://hooks.example/T"
    post := .ok ()
    logUpload := fun _ => .ok ()
    fetchRes := .ok []
    stageRes := fun _ => .ok ()
    loadRes := fun d => .ok ("stock_prices_temp_" ++ d)
    mergeRes := fun _ => .ok ()
    cleanupRes := fun _ => .ok ()
    transformRes := .ok ()
    createdAt := "2025-08-06 09:00:00"
    utcNowFile := "2025-08-06_000000"
    notifyTrace := "Traceback (ValueError)" }

/-- One fetched record, used by the error-path witness. -/
def rawW : RawRecord :=
  { ticker := "AAPL", date := "2025-08-04T00:00:00-04:00", Open := 10, High := 11,
    Low := 9, Close := 21/2, Volume := 1000, created_at := "f" }

/-- `baseEnv` with one fetched record and a failing merge call. -/
def envMergeFails : PipelineEnv :=
  { baseEnv with
    fetchRes := .ok [rawW]
    mergeRes := fun _ => .error { msg := "merge failed", trace := "TB" } }

/-- Witness for C2: the healthy environment with an empty fetch. -/
theorem run_pipelines_skip_on_empty_fetch_witness :
    run_extract_pipeline baseEnv "T0"
      = ([.fetch, .report (skipPayload "etl" "T0" SKIP_REASON),
          .notified (format_slack_message (skipPayload "etl" "T0" SKIP_REASON)) true], .ok ()) ∧
    run_extract_range_pipeline baseEnv "T0"
      = ([.fetch, .report (skipPayload "etl_range" "T0" SKIP_REASON),
          .notified (format_slack_message (skipPayload "etl_range" "T0" SKIP_REASON)) true],
         .ok ()) :=
  ⟨(run_pipelines_skip_on_empty_fetch baseEnv "T0" "https://hooks.example/T"
      rfl (by decide) rfl).1,
   (run_pipelines_skip_on_empty_fetch baseEnv "T0" "https://hooks.example/T"
      rfl (by decide) rfl).2.1⟩

set_option maxHeartbeats 2000000 in
/-- Witness for C1: a failing merge call — one error report, and the same
exception surfaces from both pipelines. -/
theorem run_pipelines_report_error_and_reraise_witness :
    (run_extract_pipeline envMergeFails "T0").2
        = .error { msg := "merge failed", trace := "TB" } ∧
    (run_extract_pipeline envMergeFails "T0").1.countP (isReportWithStatus "error") = 1 ∧
    (run_extract_range_pipeline envMergeFails "T0").2
        = .error { msg := "merge failed", trace := "TB" } ∧
    (run_extract_range_pipeline envMergeFails "T0").1.countP (isReportWithStatus "error") = 1 := by
  have h := run_pipelines_report_error_and_reraise envMergeFails "T0" "https://hooks.example/T"
    { msg := "merge failed", trace := "TB" } rfl (by decide)
  have hl := h.1 (by rfl)
  have hr := h.2 (by rfl)
  exact ⟨by rw [hl.1], hl.2, by rw [hr.1], hr.2⟩

/-- Every entry of the grouped mapping is non-empty and its first record's
date equals the entry's key (so the staging filename derived from the first
record matches the partition's date). -/
lemma grouped_entries_head (c : String) (rs : List RawRecord) :
    ∀ p ∈ format_stock_prices_by_date rs c, ∃ r' t', p.2 = r' :: t' ∧ r'.date = p.1 := by
  intro p hp
  rw [format_by_date_closed] at hp
  rcases List.mem_map.mp hp with ⟨d, hd, rfl⟩
  have hdpre : d ∈ rs.map (fun x => x.date.take 10) := (firstSeen_mem _ _).mp hd
  rcases List.mem_map.mp hdpre with ⟨x, hx, hxd⟩
  have hxf : x ∈ rs.filter (fun y => y.date.take 10 = d) :=
    List.mem_filter.mpr ⟨hx, decide_eq_true hxd⟩
  rcases hq : rs.filter (fun y => y.date.take 10 = d) with _ | ⟨y, ys⟩
  · rw [hq] at hxf
    cases hxf
  · refine ⟨formatOne c y, ys.map (formatOne c), by simp [hq], ?_⟩
    have hy : y ∈ rs.filter (fun y' => y'.date.take 10 = d) := by
      rw [hq]
      exact List.mem_cons_self _ _
    have hyd : y.date.take 10 = d := of_decide_eq_true (List.mem_filter.mp hy).2
    simp [formatOne, hyd]

/-- When staging, load, merge and cleanup all succeed, the per-date loop
performs exactly one stage → load → merge → cleanup cycle per partition, in
mapping order, and returns normally. -/
lemma processDates_all_ok (env : PipelineEnv) (tmp : String → String)
    (hstage : ∀ d, env.stageRes d = .ok ())
    (hload : ∀ d, env.loadRes d = .ok (tmp d))
    (hmerge : ∀ t', env.mergeRes t' = .ok ())
    (hclean : ∀ t', env.cleanupRes t' = .ok ()) :
    ∀ (gs : List (String × List FormattedRecord)),
      (∀ p ∈ gs, ∃ r' t', p.2 = r' :: t' ∧ r'.date = p.1) →
      processDates env gs
        = (gs.flatMap (fun p =>
            [.stage p.1, .load p.1, .mergeTemp (tmp p.1), .cleanupTemp (tmp p.1)]), .ok ()) := by
  intro gs
  induction gs with
  | nil => intro _; rfl
  | cons hd rest ih =>
    obtain ⟨d, recs⟩ := hd
    intro hheads
    rcases hheads (d, recs) (List.mem_cons_self _ _) with ⟨r', t', hrecs, hdate⟩
    dsimp only at hrecs hdate
    have hrest := fun p hp => hheads p (List.mem_cons_of_mem _ hp)
    unfold processDates
    rw [hrecs]
    simp only [save_json_to_gcs, hdate, hstage, hload, hmerge, hclean, ih hrest,
      List.flatMap_cons]
    simp

/-- Flat-mapping a key-indexed block over pairs equals flat-mapping it over
the keys. -/
lemma flatMap_fst {α : Type} (g : String → List Event) :
    ∀ (gs : List (String × α)), gs.flatMap (fun p => g p.1) = (gs.map Prod.fst).flatMap g := by
  intro gs
  induction gs with
  | nil => rfl
  | cons a t ih => simp [ih]

/-- Counting matches over per-key blocks of events. -/
lemma countP_flatMap_blocks (p : Event → Bool) (blk : String → List Event) (k : Nat)
    (h : ∀ d, (blk d).countP p = k) :
    ∀ (ks : List String), (ks.flatMap blk).countP p = k * ks.length := by
  intro ks
  induction ks with
  | nil => simp
  | cons a t ih =>
    simp only [List.flatMap_cons, List.countP_append, h, ih, List.length_cons]
    ring

/-- The keys of a canonical key-indexed pair list. -/
lemma map_fst_pairs {β : Type} (g : String → β) :
    ∀ (ks : List String), (ks.map (fun d => (d, g d))).map Prod.fst = ks := by
  intro ks
  induction ks with
  | nil => rfl
  | cons a t ih => simp [ih]

/-- **C3.** With the notification webhook configured, for a non-empty range
fetch whose formatted records span N distinct dates (N = the size of the
grouped mapping, whose keys are the distinct date substrings in first-seen
order) and no failing step, `run_extract_range_pipeline` performs stage,
load, merge and cleanup exactly N times each — once per distinct date, in the
grouping's key order, as the trace equality shows — then invokes the
Analytics Transformer exactly once, then emits exactly one success outcome
whose message states the count N of dates processed. -/
theorem run_range_per_date_cycles (env : PipelineEnv) (ts u : String)
    (rs : List RawRecord) (tmp : String → String)
    (hw : env.webhookUrl = some u) (hu : ¬ u = "")
    (hf : env.fetchRes = .ok rs) (hne : rs ≠ [])
    (hstage : ∀ d, env.stageRes d = .ok ())
    (hload : ∀ d, env.loadRes d = .ok (tmp d))
    (hmerge : ∀ t', env.mergeRes t' = .ok ())
    (hclean : ∀ t', env.cleanupRes t' = .ok ())
    (htrans : env.transformRes = .ok ()) :
    run_extract_range_pipeline env ts
      = ((Event.fetch ::
            ((format_stock_prices_by_date rs env.createdAt).map Prod.fst).flatMap
              (fun d => [.stage d, .load d, .mergeTemp (tmp d), .cleanupTemp (tmp d)]))
          ++ [Event.transform]
          ++ [.report (successPayload "etl_range" ts
                (toString (format_stock_prices_by_date rs env.createdAt).length
                  ++ "日分のETL処理が正常に完了しました。")),
              .notified (format_slack_message (successPayload "etl_range" ts
                (toString (format_stock_prices_by_date rs env.createdAt).length
                  ++ "日分のETL処理が正常に完了しました。"))) true],
         .ok ()) ∧
    (format_stock_prices_by_date rs env.createdAt).map Prod.fst
      = firstSeen (rs.map (fun x => x.date.take 10)) ∧
    (run_extract_range_pipeline env ts).1.countP isStageEv
      = (format_stock_prices_by_date rs env.createdAt).length ∧
    (run_extract_range_pipeline env ts).1.countP isLoadEv
      = (format_stock_prices_by_date rs env.createdAt).length ∧
    (run_extract_range_pipeline env ts).1.countP isMergeEv
      = (format_stock_prices_by_date rs env.createdAt).length ∧
    (run_extract_range_pipeline env ts).1.countP isCleanupEv
      = (format_stock_prices_by_date rs env.createdAt).length ∧
    (run_extract_range_pipeline env ts).1.countP isTransformEv = 1 ∧
    (run_extract_range_pipeline env ts).1.countP (isReportWithStatus "success") = 1 := by
  have hemp : rs.isEmpty = false := by
    cases rs with
    | nil => exact absurd rfl hne
    | cons a t => rfl
  have hproc := processDates_all_ok env tmp hstage hload hmerge hclean
    (format_stock_prices_by_date rs env.createdAt)
    (grouped_entries_head env.createdAt rs)
  rw [flatMap_fst (fun d => [Event.stage d, Event.load d, Event.mergeTemp (tmp d),
    Event.cleanupTemp (tmp d)])] at hproc
  have htrace : run_extract_range_pipeline env ts
      = ((Event.fetch ::
            ((format_stock_prices_by_date rs env.createdAt).map Prod.fst).flatMap
              (fun d => [.stage d, .load d, .mergeTemp (tmp d), .cleanupTemp (tmp d)]))
          ++ [Event.transform]
          ++ [.report (successPayload "etl_range" ts
                (toString (format_stock_prices_by_date rs env.createdAt).length
                  ++ "日分のETL処理が正常に完了しました。")),
              .notified (format_slack_message (successPayload "etl_range" ts
                (toString (format_stock_prices_by_date rs env.createdAt).length
                  ++ "日分のETL処理が正常に完了しました。"))) true],
         .ok ()) := by
    unfold run_extract_range_pipeline rangeBody
    simp only [hf, hemp, Bool.false_eq_true, if_false, hproc, htrans,
      handle_etl_success_configured env "etl_range" ts
        (toString (format_stock_prices_by_date rs env.createdAt).length
          ++ "日分のETL処理が正常に完了しました。") u hw hu]
  have hkeys : (format_stock_prices_by_date rs env.createdAt).map Prod.fst
      = firstSeen (rs.map (fun x => x.date.take 10)) := by
    rw [format_by_date_closed]
    exact map_fst_pairs _ _
  have hlen : ((format_stock_prices_by_date rs env.createdAt).map Prod.fst).length
      = (format_stock_prices_by_date rs env.createdAt).length := List.length_map _ _
  refine ⟨htrace, hkeys, ?_, ?_, ?_, ?_, ?_, ?_⟩
  · rw [htrace]
    simp only [List.cons_append, List.countP_cons, List.countP_append, List.countP_nil,
      countP_flatMap_blocks isStageEv (fun d => [Event.stage d, Event.load d,
        Event.mergeTemp (tmp d), Event.cleanupTemp (tmp d)]) 1 (fun d => rfl)]
    simp [isStageEv, hlen]
  · rw [htrace]
    simp only [List.cons_append, List.countP_cons, List.countP_append, List.countP_nil,
      countP_flatMap_blocks isLoadEv (fun d => [Event.stage d, Event.load d,
        Event.mergeTemp (tmp d), Event.cleanupTemp (tmp d)]) 1 (fun d => rfl)]
    simp [isLoadEv, hlen]
  · rw [htrace]
    simp only [List.cons_append, List.countP_cons, List.countP_append, List.countP_nil,
      countP_flatMap_blocks isMergeEv (fun d => [Event.stage d, Event.load d,
        Event.mergeTemp (tmp d), Event.cleanupTemp (tmp d)]) 1 (fun d => rfl)]
    simp [isMergeEv, hlen]
  · rw [htrace]
    simp only [List.cons_append, List.countP_cons, List.countP_append, List.countP_nil,
      countP_flatMap_blocks isCleanupEv (fun d => [Event.stage d, Event.load d,
        Event.mergeTemp (tmp d), Event.cleanupTemp (tmp d)]) 1 (fun d => rfl)]
    simp [isCleanupEv, hlen]
  · rw [htrace]
    simp only [List.cons_append, List.countP_cons, List.countP_append, List.countP_nil,
      countP_flatMap_blocks isTransformEv (fun d => [Event.stage d, Event.load d,
        Event.mergeTemp (tmp d), Event.cleanupTemp (tmp d)]) 0 (fun d => rfl)]
    simp [isTransformEv]
  · rw [htrace]
    simp only [List.cons_append, List.countP_cons, List.countP_append, List.countP_nil,
      countP_flatMap_blocks (isReportWithStatus "success") (fun d => [Event.stage d,
        Event.load d, Event.mergeTemp (tmp d), Event.cleanupTemp (tmp d)]) 0 (fun d => rfl)]
    simp [isReportWithStatus, successPayload_status]

/-- A second record on the same date as `rawW`. -/
def rawW2 : RawRecord :=
  { ticker := "MSFT", date := "2025-08-04T00:00:00-04:00", Open := 5, High := 6,
    Low := 4, Close := 5, Volume := 300, created_at := "f" }

/-- A record on the following date. -/
def rawW3 : RawRecord :=
  { ticker := "AAPL", date := "2025-08-05T00:00:00-04:00", Open := 7, High := 8,
    Low := 6, Close := 7, Volume := 400, created_at := "f" }

/-- `baseEnv` with a three-record fetch spanning two distinct dates. -/
def envRange : PipelineEnv :=
  { baseEnv with fetchRes := .ok [rawW, rawW2, rawW3] }

set_option maxHeartbeats 2000000 in
/-- Witness for C3: three records over two distinct dates — two cycles of
each warehouse operation, one transform, one success report. -/
theorem run_range_per_date_cycles_witness :
    (run_extract_range_pipeline envRange "T0").1.countP isStageEv = 2 ∧
    (run_extract_range_pipeline envRange "T0").1.countP isLoadEv = 2 ∧
    (run_extract_range_pipeline envRange "T0").1.countP isMergeEv = 2 ∧
    (run_extract_range_pipeline envRange "T0").1.countP isCleanupEv = 2 ∧
    (run_extract_range_pipeline envRange "T0").1.countP isTransformEv = 1 ∧
    (run_extract_range_pipeline envRange "T0").1.countP (isReportWithStatus "success") = 1 := by
  have h := run_range_per_date_cycles envRange "T0" "https://hooks.example/T"
    [rawW, rawW2, rawW3] (fun d => "stock_prices_temp_" ++ d)
    rfl (by decide) rfl (List.cons_ne_nil _ _)
    (fun d => rfl) (fun d => rfl) (fun t' => rfl) (fun t' => rfl) rfl
  refine ⟨?_, ?_, ?_, ?_, h.2.2.2.2.2.2.1, h.2.2.2.2.2.2.2⟩
  · rw [h.2.2.1]; rfl
  · rw [h.2.2.2.1]; rfl
  · rw [h.2.2.2.2.1]; rfl
  · rw [h.2.2.2.2.2.1]; rfl
